import Mathlib

/-!
Shallow embedding of `src/app.py` (housing-price Streamlit app).

Python scalars that can appear in the `inputs` dict are modelled by `Value`;
Python floats are modelled by `Rat` (the claims under study are about data
flow and exact copying, not rounding).  Python dicts keyed by strings are
modelled by association lists without duplicate keys, built by `dictInsert`
(assignment: replace in place, or append) and read by `pyGet`
(`dict.get(k, None)` semantics).  Text files are modelled as byte lists
(`List Nat`), decoded text as codepoint lists.
-/

namespace HousePriceApp

set_option autoImplicit false

/-- A Python scalar value stored in the `inputs` dict of `app.py`:
a string (categorical fields), an int (count-like widgets with
`format="%d"`), or a float (time/distance widgets), floats modelled
as rationals. -/
inductive Value where
  | str (s : String)
  | int (n : Int)
  | float (q : Rat)
  deriving DecidableEq, Repr

/-- Python `str.strip` on a character list: drop whitespace from both ends. -/
def stripChars (cs : List Char) : List Char :=
  ((cs.dropWhile Char.isWhitespace).reverse.dropWhile Char.isWhitespace).reverse

/-- Python `s.strip()`. -/
def pystrip (s : String) : String := String.mk (stripChars s.data)

/-- Python `a or b` for strings: `b` if `a` is falsy (empty), else `a`. -/
def pyOrStr (a b : String) : String := if a = "" then b else a

/-- Python `sel or ""` for an optional selectbox result: `None` and the empty
string are both falsy, and both yield `""`. -/
def orEmptyStr (sel : Option String) : String := sel.getD ""

/-- Python dict assignment `d[k] = v` on an association list with no
duplicate keys: replace the value in place if the key exists, else append. -/
def dictInsert {α : Type} : List (String × α) → String → α → List (String × α)
  | [], k, v => [(k, v)]
  | p :: ds, k, v => if p.1 = k then (k, v) :: ds else p :: dictInsert ds k v

/-- Python `d.get(k, None)` on an association list. -/
def pyGet {α : Type} : List (String × α) → String → Option α
  | [], _ => none
  | p :: ds, k => if p.1 = k then some p.2 else pyGet ds k

/-- Python dict comprehension `\x7bk: f(k) for k in ks\x7d`: successive dict
assignments starting from the empty dict. -/
def dictOfComp {α : Type} (ks : List String) (f : String → α) : List (String × α) :=
  ks.foldl (fun d k => dictInsert d k (f k)) []

/-- Line 94 of `app.py`:
`inputs["Town"] = (town_manual.strip() or (town_sel or "")).strip()`.
(The Town manual text input is always rendered, whatever the catalog.) -/
def collectTown (sel : Option String) (manual : String) : String :=
  pystrip (pyOrStr (pystrip manual) (orEmptyStr sel))

/-- Lines 102-103 of `app.py`:
`type_manual = "" if type_opts else st.text_input(...)` followed by
`inputs["Type"] = (type_manual.strip() or (type_sel or "")).strip()`.
When the Type choice list is non-empty, no manual text widget exists and
`type_manual` is the empty string. -/
def collectType (opts : List String) (sel : Option String) (manual : String) : String :=
  pystrip (pyOrStr (pystrip (if opts = [] then manual else "")) (orEmptyStr sel))

/-- The raw widget values supplied by the user on one submission
(selectbox results, manual text, and the numeric `st.number_input`
values of lines 111-121). -/
structure Widgets where
  townSel : Option String
  townManual : String
  typeSel : Option String
  typeManual : String
  totalArea : Int
  totalRooms : Int
  parking : Int
  travelMin : Rat
  driveKm : Rat
  bathrooms : Int
  elevator : Int
  driveMin : Rat
  noTransit : Int
  deriving DecidableEq, Repr

/-- The `defaults` dict of lines 105-108 of `app.py` (initial widget values). -/
def defaults : List (String × Value) :=
  [("TotalArea", Value.int 80), ("TotalRooms", Value.int 3),
   ("NumberOfBathrooms", Value.int 1), ("Parking", Value.int 0),
   ("Elevator", Value.int 0), ("travel_min_final", Value.float 30),
   ("drive_min_final", Value.float 20), ("drive_km_final", Value.float 10),
   ("no_transit_route", Value.int 0)]

/-- The `inputs` dict as assembled by lines 87-121 of `app.py`, in assignment
order: Town, Type, then the `c1` column block (TotalArea, TotalRooms, Parking,
travel_min_final, drive_km_final), then the `c2` block (NumberOfBathrooms,
Elevator, drive_min_final, no_transit_route).  `travel_min_final` is collected
directly from its own widget on line 114; no field is derived from another.
The keys are distinct, so the dict is this literal association list. -/
def collectInputs (typeOpts : List String) (w : Widgets) : List (String × Value) :=
  [("Town", Value.str (collectTown w.townSel w.townManual)),
   ("Type", Value.str (collectType typeOpts w.typeSel w.typeManual)),
   ("TotalArea", Value.int w.totalArea),
   ("TotalRooms", Value.int w.totalRooms),
   ("Parking", Value.int w.parking),
   ("travel_min_final", Value.float w.travelMin),
   ("drive_km_final", Value.float w.driveKm),
   ("NumberOfBathrooms", Value.int w.bathrooms),
   ("Elevator", Value.int w.elevator),
   ("drive_min_final", Value.float w.driveMin),
   ("no_transit_route", Value.int w.noTransit)]

/-- Line 128 of `app.py`: `row = \x7bk: inputs.get(k, None) for k in features\x7d`.
The single-row DataFrame of line 129 has exactly the keys of this dict as
columns, in dict insertion order. -/
def assembleRow (features : List String) (inputs : List (String × Value)) :
    List (String × Option Value) :=
  dictOfComp features (fun k => pyGet inputs k)

/-- Outcome of the submit handler (lines 130-137 of `app.py`): either the
success path (price per square metre, total price) or the caught-exception
path with the `st.error` message. -/
inductive PredOutcome where
  | success (ppm2 total : Rat)
  | failure (msg : String)
  deriving DecidableEq, Repr

/-- Result of one script step: `continue_` models normal fall-through of the
Streamlit script (the session stays usable), `halted` models `st.stop()`
after an `st.error` message. -/
inductive StepResult (α : Type) where
  | continue_ (a : α)
  | halted (msg : String)
  deriving DecidableEq, Repr

/-- Line 132 of `app.py`: `float(inputs.get("TotalArea", 0) or 0)`.
The argument is the looked-up area: `none` models both an absent key
(`get` default 0) and a Python `None` value (falsy, so `or 0` yields 0);
a numeric value `q` yields `q` (for `q = 0` the falsy branch also gives 0). -/
def areaOrZero (a : Option Rat) : Rat := a.getD 0

/-- Lines 130-137 of `app.py`: the `try` block around `model.predict`.
The opaque estimator call `float(model.predict(X)[0])` is modelled by its
outcome `predictResult`: `Except.ok ppm2` when it returns a scalar,
`Except.error e` when it raises with message `e`.  On success the total is
`ppm2 * areaOrZero area` and `st.success` is shown; on any exception the
handler catches it and shows `st.error(f"Prediction failed: \x7be\x7d")`,
never calling `st.stop()`. -/
def handleSubmit (predictResult : Except String Rat) (area : Option Rat) :
    StepResult PredOutcome :=
  match predictResult with
  | Except.ok ppm2 => StepResult.continue_ (PredOutcome.success ppm2 (ppm2 * areaOrZero area))
  | Except.error e => StepResult.continue_ (PredOutcome.failure ("Prediction failed: " ++ e))

/-- Lines 16-27 of `app.py` (`ensure_model`).  `existsBefore` is
`MODEL_PATH.exists()`; the gdown call is modelled by its outcome `dl`:
`Except.error e` when it raises with message `e`, `Except.ok (ea, sz)` when
it returns with the file existing (`ea`) at size `sz` bytes afterwards.
If the file is present beforehand the function returns at once (the
download outcome is never consulted).  Otherwise a raised error, a missing
file, or a size below 10000000 bytes all reach the `except` branch:
`st.error(f"Model download failed: \x7be\x7d")` then `st.stop()`. -/
def ensure_model (existsBefore : Bool) (dl : Except String (Bool × Nat)) :
    StepResult Unit :=
  if existsBefore then StepResult.continue_ ()
  else
    match dl with
    | Except.error e => StepResult.halted ("Model download failed: " ++ e)
    | Except.ok (existsAfter, size) =>
      if existsAfter = false ∨ size < 10000000 then
        StepResult.halted
          ("Model download failed: " ++ "Downloaded file looks too small or missing.")
      else StepResult.continue_ ()

/-- A Python attribute slot: either absent (`hasattr` is false) or present
with a value. -/
inductive PyAttr (α : Type) where
  | absent
  | val (a : α)
  deriving DecidableEq, Repr

/-- A sub-estimator as seen by `patch_forest_monotonic`: whether it is a
`DecisionTreeRegressor` instance, and its `monotonic_cst` attribute slot
(whose value, when present, is Python `None` — no constraint — or a
constraint array, modelled as a list of integers). -/
structure SubEst where
  isDTR : Bool
  mono : PyAttr (Option (List Int))
  deriving DecidableEq, Repr

/-- The deserialized model as inspected by `patch_forest_monotonic`:
an optional `estimators_` attribute (a list of sub-estimators), and an
optional `steps` attribute (pipeline steps, each a pair of a name and a
sub-model represented by its own optional `estimators_` attribute). -/
structure PyModel where
  estimators_ : Option (List SubEst)
  steps : Option (List (String × Option (List SubEst)))
  deriving DecidableEq, Repr

/-- Lines 49-50 / 56-57 of `app.py`: on a `DecisionTreeRegressor` lacking
`monotonic_cst`, set the attribute to Python `None`; otherwise leave the
estimator unchanged. -/
def patchEst (e : SubEst) : SubEst :=
  if e.isDTR = true ∧ e.mono = PyAttr.absent then { e with mono := PyAttr.val none } else e

/-- Lines 42-60 of `app.py` (`patch_forest_monotonic`).  First block: if the
model has `estimators_`, patch each element.  Second block: if the model has
`steps`, take `steps[-1][1]`; when the list is empty the `IndexError` is
swallowed by the catch-all (the already-applied first block persists, since
the mutation happened before the exception); when the last stage has
`estimators_`, patch each of its elements in place. -/
def patch_forest_monotonic (m : PyModel) : PyModel :=
  let m1 :=
    match m.estimators_ with
    | some es => { m with estimators_ := some (es.map patchEst) }
    | none => m
  match m1.steps with
  | none => m1
  | some ss =>
    match ss.getLast? with
    | none => m1
    | some (nm, osub) =>
      match osub with
      | none => m1
      | some es => { m1 with steps := some (ss.dropLast ++ [(nm, some (es.map patchEst))]) }

/-- The sub-estimators of the direct `estimators_` collection of the model. -/
def directEsts (m : PyModel) : List SubEst := m.estimators_.getD []

/-- The sub-estimators of the last pipeline stage (`model.steps[-1][1]`),
empty when there are no steps or the last stage has no `estimators_`. -/
def lastStageEsts (m : PyModel) : List SubEst :=
  match m.steps with
  | none => []
  | some ss =>
    match ss.getLast? with
    | none => []
    | some (_, osub) => osub.getD []

/-- The condition under which `model.predict` raises no attribute-not-found
fault for `monotonic_cst`: every decision-tree sub-estimator reachable for
prediction (direct collection or last pipeline stage) has the attribute
present. -/
def noMonotonicFault (m : PyModel) : Prop :=
  (∀ e ∈ directEsts m, e.isDTR = true → e.mono ≠ PyAttr.absent) ∧
  (∀ e ∈ lastStageEsts m, e.isDTR = true → e.mono ≠ PyAttr.absent)

/-- UTF-8 encoding of one Unicode scalar value (codepoints as `Nat`). -/
def utf8EncodeChar (c : Nat) : List Nat :=
  if c < 0x80 then [c]
  else if c < 0x800 then [0xC0 + c / 0x40, 0x80 + c % 0x40]
  else if c < 0x10000 then
    [0xE0 + c / 0x1000, 0x80 + (c / 0x40) % 0x40, 0x80 + c % 0x40]
  else
    [0xF0 + c / 0x40000, 0x80 + (c / 0x1000) % 0x40, 0x80 + (c / 0x40) % 0x40, 0x80 + c % 0x40]

/-- UTF-8 encoding of a text (list of scalar values) as a byte list. -/
def utf8Encode : List Nat → List Nat
  | [] => []
  | c :: cs => utf8EncodeChar c ++ utf8Encode cs

/-- Strict UTF-8 decoding of one codepoint from the front of a byte list:
returns the codepoint and the remaining bytes, or `none` on a truncated
sequence, stray or missing continuation byte, overlong form, surrogate, or
codepoint above 0x10FFFF. -/
def utf8DecodeOne (l : List Nat) : Option (Nat × List Nat) :=
  match l with
  | [] => none
  | b0 :: bs =>
    if b0 < 0x80 then some (b0, bs)
    else if b0 < 0xC2 then none
    else if b0 < 0xE0 then
      match bs.head? with
      | some b1 =>
        if 0x80 ≤ b1 ∧ b1 < 0xC0 then
          some ((b0 - 0xC0) * 0x40 + (b1 - 0x80), bs.drop 1)
        else none
      | none => none
    else if b0 < 0xF0 then
      match bs.head?, (bs.drop 1).head? with
      | some b1, some b2 =>
        if (0x80 ≤ b1 ∧ b1 < 0xC0) ∧ (0x80 ≤ b2 ∧ b2 < 0xC0) then
          if 0x800 ≤ (b0 - 0xE0) * 0x1000 + (b1 - 0x80) * 0x40 + (b2 - 0x80) ∧
              ((b0 - 0xE0) * 0x1000 + (b1 - 0x80) * 0x40 + (b2 - 0x80) < 0xD800 ∨
               0xE000 ≤ (b0 - 0xE0) * 0x1000 + (b1 - 0x80) * 0x40 + (b2 - 0x80)) then
            some ((b0 - 0xE0) * 0x1000 + (b1 - 0x80) * 0x40 + (b2 - 0x80), bs.drop 2)
          else none
        else none
      | _, _ => none
    else if b0 < 0xF5 then
      match bs.head?, (bs.drop 1).head?, (bs.drop 2).head? with
      | some b1, some b2, some b3 =>
        if (0x80 ≤ b1 ∧ b1 < 0xC0) ∧ (0x80 ≤ b2 ∧ b2 < 0xC0) ∧ (0x80 ≤ b3 ∧ b3 < 0xC0) then
          if 0x10000 ≤ (b0 - 0xF0) * 0x40000 + (b1 - 0x80) * 0x1000 + (b2 - 0x80) * 0x40 + (b3 - 0x80) ∧
              (b0 - 0xF0) * 0x40000 + (b1 - 0x80) * 0x1000 + (b2 - 0x80) * 0x40 + (b3 - 0x80) < 0x110000 then
            some ((b0 - 0xF0) * 0x40000 + (b1 - 0x80) * 0x1000 + (b2 - 0x80) * 0x40 + (b3 - 0x80), bs.drop 3)
          else none
        else none
      | _, _, _ => none
    else none

/-- Iterated strict UTF-8 decoding with explicit fuel (structural recursion;
any fuel at least the byte count gives the same decoded value). -/
def utf8DecodeFuel : Nat → List Nat → Option (List Nat)
  | _, [] => some []
  | 0, _ :: _ => none
  | f + 1, b0 :: bs =>
    match utf8DecodeOne (b0 :: bs) with
    | none => none
    | some (c, rest) => (utf8DecodeFuel f rest).map (fun cs => c :: cs)

/-- Strict UTF-8 decoding of a byte list, as performed by
`open(path, encoding="utf-8", errors="strict")` followed by a full read:
the decoded codepoints, or `none` when any byte sequence is invalid. -/
def utf8Decode (l : List Nat) : Option (List Nat) := utf8DecodeFuel l.length l

/-- Latin-1 (ISO-8859-1) encoding: defined exactly on texts whose codepoints
fit in one byte, and there it is the identity on codepoint values. -/
def latin1Encode (cs : List Nat) : Option (List Nat) :=
  if cs.all (fun c => c < 0x100) then some cs else none

/-- Latin-1 decoding, as performed by `open(path, encoding="latin-1")`:
every byte decodes to the codepoint of the same value, never failing. -/
def latin1Decode (bs : List Nat) : Option (List Nat) :=
  if bs.all (fun b => b < 0x100) then some bs else none

/-- Lines 30-39 of `app.py` (`read_json_resilient`).  `file` is the byte
content of the file at `path` (`none` when `path.exists()` is false);
`parse` models `json.load` on the decoded text (`none` when it raises).
The loop tries `("utf-8", "latin-1")` in order; any decode or parse failure
falls through to the next encoding, and when both fail the default is
returned.  The function is total: it never raises. -/
def read_json_resilient {α : Type} (parse : List Nat → Option α)
    (file : Option (List Nat)) (default : α) : α :=
  match file with
  | none => default
  | some bs =>
    match (utf8Decode bs).bind parse with
    | some v => v
    | none =>
      match (latin1Decode bs).bind parse with
      | some v => v
      | none => default

/-- Line 70 of `app.py`: the default for the choices catalog, the dict
literal with keys "Town" and "Type" each mapped to an empty list. -/
def emptyCatalog : List (String × List String) := [("Town", []), ("Type", [])]

/-- Line 70 of `app.py`:
`choices = read_json_resilient(CHOICES_PATH, \x7b"Town": [], "Type": []\x7d)`. -/
def loadCatalog (parse : List Nat → Option (List (String × List String)))
    (file : Option (List Nat)) : List (String × List String) :=
  read_json_resilient parse file emptyCatalog

@[simp] theorem pyGet_nil {α : Type} (k : String) :
    pyGet ([] : List (String × α)) k = none := rfl

@[simp] theorem pyGet_cons {α : Type} (p : String × α) (ds : List (String × α)) (k : String) :
    pyGet (p :: ds) k = if p.1 = k then some p.2 else pyGet ds k := rfl

@[simp] theorem dictInsert_nil {α : Type} (k : String) (v : α) :
    dictInsert ([] : List (String × α)) k v = [(k, v)] := rfl

theorem dictInsert_cons {α : Type} (p : String × α) (ds : List (String × α)) (k : String) (v : α) :
    dictInsert (p :: ds) k v = if p.1 = k then (k, v) :: ds else p :: dictInsert ds k v := rfl

theorem pyGet_dictInsert {α : Type} (d : List (String × α)) (k k2 : String) (v : α) :
    pyGet (dictInsert d k v) k2 = if k = k2 then some v else pyGet d k2 := by
  induction d with
  | nil => simp
  | cons p ds ih =>
    by_cases h : p.1 = k <;> by_cases h2 : k = k2 <;>
      simp_all [dictInsert_cons]

theorem pyGet_foldl_dictInsert {α : Type} (ks : List String) (f : String → α) (k : String) :
    ∀ d, pyGet (ks.foldl (fun d k2 => dictInsert d k2 (f k2)) d) k =
      if k ∈ ks then some (f k) else pyGet d k := by
  induction ks with
  | nil => intro d; simp
  | cons a ks ih =>
    intro d
    simp only [List.foldl_cons]
    rw [ih]
    by_cases hk : k ∈ ks
    · simp [hk]
    · rw [if_neg hk, pyGet_dictInsert]
      by_cases ha : a = k
      · simp [ha]
      · have : ¬ k ∈ a :: ks := by
          simp [List.mem_cons, hk]
          exact fun h2 => ha h2.symm
        simp [ha, this]

theorem pyGet_dictOfComp {α : Type} (ks : List String) (f : String → α) (k : String) :
    pyGet (dictOfComp ks f) k = if k ∈ ks then some (f k) else none := by
  simpa [pyGet] using pyGet_foldl_dictInsert ks f k []

theorem dictInsert_append {α : Type} (d : List (String × α)) (k : String) (v : α)
    (h : ∀ p ∈ d, p.1 ≠ k) : dictInsert d k v = d ++ [(k, v)] := by
  induction d with
  | nil => simp [dictInsert]
  | cons p ds ih =>
    have hp : p.1 ≠ k := h p (List.mem_cons_self p ds)
    simp only [dictInsert, if_neg hp, List.cons_append, List.cons.injEq, true_and]
    exact ih fun q hq => h q (List.mem_cons_of_mem p hq)

theorem foldl_dictInsert_eq_append {α : Type} (ks : List String) (f : String → α) :
    ∀ d, ks.Nodup → (∀ k ∈ ks, ∀ p ∈ d, p.1 ≠ k) →
      ks.foldl (fun d2 k2 => dictInsert d2 k2 (f k2)) d = d ++ ks.map (fun k2 => (k2, f k2)) := by
  induction ks with
  | nil => intro d _ _; simp
  | cons a ks ih =>
    intro d hnd hdisj
    simp only [List.foldl_cons]
    rw [dictInsert_append d a (f a) (hdisj a (List.mem_cons_self a ks))]
    rw [ih (d ++ [(a, f a)]) hnd.of_cons ?_]
    · simp
    · intro k hk p hp
      rcases List.mem_append.mp hp with h1 | h2
      · exact hdisj k (List.mem_cons_of_mem a hk) p h1
      · have hpa : p = (a, f a) := by simpa using h2
        have hak : a ≠ k := by
          intro he
          exact (List.nodup_cons.mp hnd).1 (he ▸ hk)
        simpa [hpa] using hak

theorem dictOfComp_nodup {α : Type} (ks : List String) (f : String → α) (h : ks.Nodup) :
    dictOfComp ks f = ks.map (fun k2 => (k2, f k2)) := by
  simpa [dictOfComp] using foldl_dictInsert_eq_append ks f [] h (by simp)

theorem stripChars_eq_rdropWhile (cs : List Char) :
    stripChars cs = List.rdropWhile Char.isWhitespace (List.dropWhile Char.isWhitespace cs) := by
  simp [stripChars, List.rdropWhile]

theorem stripChars_idempotent (cs : List Char) :
    stripChars (stripChars cs) = stripChars cs := by
  have key : ∀ l : List Char, List.dropWhile Char.isWhitespace l = l →
      stripChars (List.rdropWhile Char.isWhitespace l) =
        List.rdropWhile Char.isWhitespace l := by
    intro l hl
    obtain ⟨s, hs⟩ := List.rdropWhile_prefix Char.isWhitespace (l := l)
    have hr : List.dropWhile Char.isWhitespace (List.rdropWhile Char.isWhitespace l) =
        List.rdropWhile Char.isWhitespace l := by
      cases hcase : List.rdropWhile Char.isWhitespace l with
      | nil => simp
      | cons c r2 =>
        have hlc : l = c :: (r2 ++ s) := by rw [← hs, hcase]; simp
        have hwc : ¬ Char.isWhitespace c = true := by
          intro hcontra
          rw [hlc, List.dropWhile_cons, if_pos hcontra] at hl
          have hlen := congrArg List.length hl
          have hle := (List.dropWhile_sublist (l := r2 ++ s) Char.isWhitespace).length_le
          simp only [List.length_cons] at hlen
          omega
        rw [List.dropWhile_cons, if_neg hwc]
    rw [stripChars_eq_rdropWhile, hr, List.rdropWhile_idempotent]
  rw [stripChars_eq_rdropWhile cs]
  exact key _ (List.dropWhile_idempotent _ _)

theorem pystrip_idempotent (s : String) : pystrip (pystrip s) = pystrip s := by
  simp [pystrip, stripChars_idempotent]

theorem utf8DecodeOne_length (l : List Nat) (c : Nat) (rest : List Nat)
    (h : utf8DecodeOne l = some (c, rest)) : rest.length < l.length := by
  cases l with
  | nil => simp [utf8DecodeOne] at h
  | cons b0 bs =>
    simp only [utf8DecodeOne] at h
    repeat' split at h
    all_goals (try exact (Option.noConfusion h))
    all_goals
      (simp only [Option.some.injEq, Prod.mk.injEq] at h
       obtain ⟨h1, h2⟩ := h
       subst h2
       simp only [List.length_drop, List.length_cons]
       omega)

theorem utf8DecodeFuel_congr (f1 : Nat) : ∀ (f2 : Nat) (l : List Nat),
    l.length ≤ f1 → l.length ≤ f2 → utf8DecodeFuel f1 l = utf8DecodeFuel f2 l := by
  induction f1 with
  | zero =>
    intro f2 l h1 h2
    cases l with
    | nil => cases f2 <;> rfl
    | cons a l2 => simp at h1
  | succ f ih =>
    intro f2 l h1 h2
    cases l with
    | nil => cases f2 <;> rfl
    | cons b0 bs =>
      cases f2 with
      | zero => simp at h2
      | succ g =>
        rw [utf8DecodeFuel, utf8DecodeFuel]
        cases hone : utf8DecodeOne (b0 :: bs) with
        | none => rfl
        | some pr =>
          obtain ⟨c, rest⟩ := pr
          have hlen := utf8DecodeOne_length _ _ _ hone
          simp only [List.length_cons] at h1 h2 hlen
          dsimp only
          rw [ih g rest (by omega) (by omega)]

theorem utf8Decode_decodeOne (l : List Nat) (c : Nat) (rest : List Nat)
    (h : utf8DecodeOne l = some (c, rest)) :
    utf8Decode l = (utf8Decode rest).map (fun cs => c :: cs) := by
  cases l with
  | nil => simp [utf8DecodeOne] at h
  | cons b0 bs =>
    have hlen := utf8DecodeOne_length _ _ _ h
    show utf8DecodeFuel (b0 :: bs).length (b0 :: bs) = _
    simp only [List.length_cons]
    rw [utf8DecodeFuel, h]
    simp only [List.length_cons] at hlen
    dsimp only
    rw [utf8DecodeFuel_congr bs.length rest.length rest (by omega) le_rfl]
    rfl

theorem utf8DecodeOne_encodeChar (c : Nat) (bs : List Nat) (h : c < 0x100) :
    utf8DecodeOne (utf8EncodeChar c ++ bs) = some (c, bs) := by
  by_cases h1 : c < 0x80
  · simp only [utf8EncodeChar, if_pos h1, List.cons_append, List.nil_append]
    simp [utf8DecodeOne, h1]
  · have h2 : c < 0x800 := by omega
    simp only [utf8EncodeChar, if_neg h1, if_pos h2, List.cons_append, List.nil_append]
    simp only [utf8DecodeOne]
    rw [if_neg (by omega), if_neg (by omega), if_pos (by omega)]
    simp only [List.head?_cons, List.drop_succ_cons, List.drop_zero]
    rw [if_pos (by omega)]
    have hval : (0xC0 + c / 0x40 - 0xC0) * 0x40 + (0x80 + c % 0x40 - 0x80) = c := by omega
    rw [hval]

theorem utf8Decode_encodeChar_append (c : Nat) (bs : List Nat) (h : c < 0x100) :
    utf8Decode (utf8EncodeChar c ++ bs) = (utf8Decode bs).map (fun cs => c :: cs) :=
  utf8Decode_decodeOne _ _ _ (utf8DecodeOne_encodeChar c bs h)

theorem utf8Decode_utf8Encode (cs : List Nat) (h : ∀ c ∈ cs, c < 0x100) :
    utf8Decode (utf8Encode cs) = some cs := by
  induction cs with
  | nil => rfl
  | cons c cs2 ih =>
    rw [utf8Encode, utf8Decode_encodeChar_append c _ (h c (List.mem_cons_self c cs2))]
    rw [ih fun x hx => h x (List.mem_cons_of_mem c hx)]
    rfl

theorem patchEst_isDTR (e : SubEst) : (patchEst e).isDTR = e.isDTR := by
  rw [patchEst]
  split_ifs <;> rfl

theorem patchEst_of_absent (e : SubEst) (h1 : e.isDTR = true) (h2 : e.mono = PyAttr.absent) :
    patchEst e = { e with mono := PyAttr.val none } := by
  rw [patchEst, if_pos ⟨h1, h2⟩]

theorem patchEst_mono_present (e : SubEst) (h1 : e.isDTR = true) :
    (patchEst e).mono ≠ PyAttr.absent := by
  by_cases h2 : e.mono = PyAttr.absent
  · rw [patchEst_of_absent e h1 h2]
    simp
  · rw [patchEst, if_neg]
    · exact h2
    · intro hc
      exact h2 hc.2

theorem directEsts_patch (m : PyModel) :
    directEsts (patch_forest_monotonic m) = (directEsts m).map patchEst := by
  rw [patch_forest_monotonic]
  cases hm : m.estimators_ with
  | none =>
    cases hs : m.steps with
    | none => simp [directEsts, hm, hs]
    | some ss =>
      cases hl : ss.getLast? with
      | none => simp [directEsts, hm, hs, hl]
      | some pr =>
        obtain ⟨nm, osub⟩ := pr
        cases osub <;> simp [directEsts, hm, hs, hl]
  | some es =>
    cases hs : m.steps with
    | none => simp [directEsts, hm, hs]
    | some ss =>
      cases hl : ss.getLast? with
      | none => simp [directEsts, hm, hs, hl]
      | some pr =>
        obtain ⟨nm, osub⟩ := pr
        cases osub <;> simp [directEsts, hm, hs, hl]

theorem lastStageEsts_patch (m : PyModel) :
    lastStageEsts (patch_forest_monotonic m) = (lastStageEsts m).map patchEst := by
  rw [patch_forest_monotonic]
  cases hm : m.estimators_ with
  | none =>
    cases hs : m.steps with
    | none => simp [lastStageEsts, hm, hs]
    | some ss =>
      cases hl : ss.getLast? with
      | none => simp [lastStageEsts, hm, hs, hl]
      | some pr =>
        obtain ⟨nm, osub⟩ := pr
        cases osub with
        | none => simp [lastStageEsts, hm, hs, hl]
        | some es2 => simp [lastStageEsts, hm, hs, hl, List.getLast?_concat]
  | some es =>
    cases hs : m.steps with
    | none => simp [lastStageEsts, hm, hs]
    | some ss =>
      cases hl : ss.getLast? with
      | none => simp [lastStageEsts, hm, hs, hl]
      | some pr =>
        obtain ⟨nm, osub⟩ := pr
        cases osub with
        | none => simp [lastStageEsts, hm, hs, hl]
        | some es2 => simp [lastStageEsts, hm, hs, hl, List.getLast?_concat]

/-- C3: after `patch_forest_monotonic`, every decision-tree sub-estimator that
lacked `monotonic_cst` — in the direct `estimators_` collection or in the last
stage of a pipeline — has the attribute set to the no-constraint value
(Python `None`), and no reachable decision-tree sub-estimator lacks the
attribute, so `model.predict` raises no attribute-not-found fault for it. -/
theorem C3_patch_monotonic (m : PyModel) :
    (∀ (i : Nat) (e : SubEst),
      (directEsts m)[i]? = some e → e.isDTR = true → e.mono = PyAttr.absent →
      (directEsts (patch_forest_monotonic m))[i]? =
        some { e with mono := PyAttr.val none }) ∧
    (∀ (i : Nat) (e : SubEst),
      (lastStageEsts m)[i]? = some e → e.isDTR = true → e.mono = PyAttr.absent →
      (lastStageEsts (patch_forest_monotonic m))[i]? =
        some { e with mono := PyAttr.val none }) ∧
    noMonotonicFault (patch_forest_monotonic m) := by
  refine ⟨?_, ?_, ?_, ?_⟩
  · intro i e hi h1 h2
    rw [directEsts_patch, List.getElem?_map, hi]
    simp [patchEst_of_absent e h1 h2]
  · intro i e hi h1 h2
    rw [lastStageEsts_patch, List.getElem?_map, hi]
    simp [patchEst_of_absent e h1 h2]
  · intro e he h1
    rw [directEsts_patch] at he
    obtain ⟨x, hx, rfl⟩ := List.mem_map.mp he
    exact patchEst_mono_present x (by rwa [patchEst_isDTR] at h1)
  · intro e he h1
    rw [lastStageEsts_patch] at he
    obtain ⟨x, hx, rfl⟩ := List.mem_map.mp he
    exact patchEst_mono_present x (by rwa [patchEst_isDTR] at h1)

/-- Witness for C3 at a concrete model with one unpatched decision tree in
`estimators_` and one in the last pipeline stage. -/
theorem C3_patch_monotonic_witness :
    (directEsts (patch_forest_monotonic
        ⟨some [⟨true, PyAttr.absent⟩], some [("rf", some [⟨true, PyAttr.absent⟩])]⟩))[0]? =
      some ⟨true, PyAttr.val none⟩ ∧
    (lastStageEsts (patch_forest_monotonic
        ⟨some [⟨true, PyAttr.absent⟩], some [("rf", some [⟨true, PyAttr.absent⟩])]⟩))[0]? =
      some ⟨true, PyAttr.val none⟩ ∧
    noMonotonicFault (patch_forest_monotonic
      ⟨some [⟨true, PyAttr.absent⟩], some [("rf", some [⟨true, PyAttr.absent⟩])]⟩) := by
  have h := C3_patch_monotonic
    ⟨some [⟨true, PyAttr.absent⟩], some [("rf", some [⟨true, PyAttr.absent⟩])]⟩
  exact ⟨h.1 0 ⟨true, PyAttr.absent⟩ rfl rfl rfl,
         h.2.1 0 ⟨true, PyAttr.absent⟩ rfl rfl rfl, h.2.2⟩

/-- C1 counterexample: the row is a Python dict, so a schema list with a
repeated name yields fewer columns than schema entries — with schema
`["a", "a"]` (N = 2) the assembled row has a single column. -/
theorem C1_assemble_cx :
    (assembleRow ["a", "a"] []).length = 1 ∧
    assembleRow ["a", "a"] [] = [("a", (none : Option Value))] ∧
    (["a", "a"] : List String).length = 2 := by
  decide

/-- C1 (amended): for every feature schema with pairwise-distinct names and
every input record, the assembled row is exactly the schema mapped to its
looked-up values: it has exactly N columns, in schema order, and every
schema name absent from the record is bound to the missing-value sentinel
(`None`). -/
theorem C1_assemble_schema_order (features : List String)
    (inputs : List (String × Value)) (hnd : features.Nodup) :
    assembleRow features inputs = features.map (fun k => (k, pyGet inputs k)) ∧
    (assembleRow features inputs).length = features.length ∧
    (assembleRow features inputs).map Prod.fst = features ∧
    (∀ k, k ∈ features → pyGet inputs k = none →
      (k, (none : Option Value)) ∈ assembleRow features inputs) := by
  have hmain : assembleRow features inputs = features.map (fun k => (k, pyGet inputs k)) :=
    dictOfComp_nodup features _ hnd
  refine ⟨hmain, ?_, ?_, ?_⟩
  · rw [hmain, List.length_map]
  · rw [hmain, List.map_map]
    exact List.map_id features
  · intro k hk hnone
    rw [hmain, ← hnone]
    exact List.mem_map_of_mem _ hk

/-- Witness for C1 at a concrete two-name schema with one absent name. -/
theorem C1_assemble_schema_order_witness :
    (["Town", "Type"] : List String).Nodup ∧
    assembleRow ["Town", "Type"] [("Town", Value.str "X")] =
      [("Town", some (Value.str "X")), ("Type", (none : Option Value))] := by
  refine ⟨by decide, ?_⟩
  rw [(C1_assemble_schema_order ["Town", "Type"] [("Town", Value.str "X")] (by decide)).1]
  decide

/-- C2 counterexample: with `no_transit_route = 1` and `drive_min_final = 20`
but an independently collected `travel_min_final = 30`, the assembled row has
`travel_min_final` equal to 30, not 20 — the code never copies the car time; and
the travel-time widget (line 114) has no lower bound, so a negative value is
collected as-is. -/
theorem C2_transit_cx :
    (pyGet (assembleRow
        ["Town", "Type", "TotalArea", "TotalRooms", "NumberOfBathrooms", "Parking",
         "Elevator", "travel_min_final", "drive_min_final", "drive_km_final",
         "no_transit_route"]
        (collectInputs []
          ⟨none, "Lisbon", none, "Apartment", 80, 3, 0, 30, 10, 1, 0, 20, 1⟩))
      "travel_min_final" = some (some (Value.float 30))) ∧
    (Widgets.noTransit ⟨none, "Lisbon", none, "Apartment", 80, 3, 0, 30, 10, 1, 0, 20, 1⟩ = 1) ∧
    (Widgets.driveMin ⟨none, "Lisbon", none, "Apartment", 80, 3, 0, 30, 10, 1, 0, 20, 1⟩ = 20) ∧
    some (some (Value.float 30)) ≠ some (some (Value.float 20)) ∧
    (pyGet (collectInputs []
        ⟨none, "Lisbon", none, "Apartment", 80, 3, 0, -5, 10, 1, 0, 20, 1⟩)
      "travel_min_final" = some (Value.float (-5))) := by
  decide

/-- C2 (amended): `travel_min_final` is always collected independently from
its own widget (default 30.0, no sign constraint); for every widget state and
every schema containing the field, the `travel_min_final` of the assembled row
equals the collected widget value, regardless of `no_transit_route` and
`drive_min_final`. -/
theorem C2_transit_collected_independently (typeOpts : List String) (w : Widgets)
    (feats : List String) (h : "travel_min_final" ∈ feats) :
    pyGet (assembleRow feats (collectInputs typeOpts w)) "travel_min_final" =
      some (some (Value.float w.travelMin)) ∧
    pyGet defaults "travel_min_final" = some (Value.float 30) := by
  constructor
  · rw [assembleRow, pyGet_dictOfComp, if_pos h]
    simp [collectInputs]
  · rfl

/-- Witness for C2 at a concrete widget state and schema. -/
theorem C2_transit_collected_independently_witness :
    ("travel_min_final" : String) ∈
      ["travel_min_final", "drive_min_final"] ∧
    pyGet (assembleRow ["travel_min_final", "drive_min_final"]
        (collectInputs [] ⟨none, "", none, "", 0, 0, 0, 7, 0, 0, 0, 9, 1⟩))
      "travel_min_final" = some (some (Value.float 7)) :=
  ⟨by decide,
   (C2_transit_collected_independently [] ⟨none, "", none, "", 0, 0, 0, 7, 0, 0, 0, 9, 1⟩
     ["travel_min_final", "drive_min_final"] (by decide)).1⟩

/-- C9 counterexample: when the Type choice list is non-empty, the manual
text widget for Type is not rendered (`type_manual = ""`), so a manually
typed value is not accepted: with catalog `["Apartment"]` and typed text
`"Villa"`, the collected Type is `""`, not `"Villa"` (while with an empty
list the same typed text is accepted). -/
theorem C9_type_manual_cx :
    pystrip "Villa" = "Villa" ∧ ("Villa" : String) ≠ "" ∧
    collectType ["Apartment"] none "Villa" = "" ∧
    collectType [] none "Villa" = "Villa" := by
  decide

/-- C9 (amended): the Town selector is overridable by free text for every
catalog state (trimmed, empty valid); the Type selector accepts manual text
only when its choice list is empty — with a non-empty list the manual field
is absent and the collected Type is the trimmed dropdown selection. -/
theorem C9_manual_text_rules (townSel : Option String) (townManual : String)
    (typeOpts : List String) (typeSel : Option String) (typeManual : String) :
    (pystrip townManual ≠ "" → collectTown townSel townManual = pystrip townManual) ∧
    (typeOpts = [] → pystrip typeManual ≠ "" →
      collectType typeOpts typeSel typeManual = pystrip typeManual) ∧
    (typeOpts ≠ [] → collectType typeOpts typeSel typeManual = pystrip (orEmptyStr typeSel)) := by
  refine ⟨?_, ?_, ?_⟩
  · intro h
    rw [collectTown, pyOrStr, if_neg h, pystrip_idempotent]
  · intro hopt h
    rw [collectType, if_pos hopt, pyOrStr, if_neg h, pystrip_idempotent]
  · intro hopt
    rw [collectType, if_neg hopt]
    have hempty : pystrip "" = "" := rfl
    rw [hempty, pyOrStr, if_pos rfl]

/-- Witness for C9 at concrete selections, typed text and catalogs. -/
theorem C9_manual_text_rules_witness :
    collectTown (some "Porto") " Lisbon " = "Lisbon" ∧
    collectType [] (some "House") " Apartment " = "Apartment" ∧
    collectType ["House"] (some "House") "Villa" = "House" := by
  refine ⟨?_, ?_, ?_⟩
  · rw [(C9_manual_text_rules (some "Porto") " Lisbon " [] none "").1 (by decide)]
    decide
  · rw [(C9_manual_text_rules none "" [] (some "House") " Apartment ").2.1 rfl (by decide)]
    decide
  · rw [(C9_manual_text_rules none "" ["House"] (some "House") "Villa").2.2 (by decide)]
    decide

/-- C10: the manually typed Town takes precedence over the dropdown: a
non-blank (after trimming) manual text is the collected Town regardless of
the selection; when the manual text is blank the (trimmed) dropdown value is
used; and when both are empty the collected Town is the empty string. -/
theorem C10_town_manual_precedence (sel : Option String) (manual : String) :
    (pystrip manual ≠ "" → collectTown sel manual = pystrip manual) ∧
    (pystrip manual = "" → collectTown sel manual = pystrip (orEmptyStr sel)) ∧
    (pystrip manual = "" → sel = none → collectTown sel manual = "") := by
  refine ⟨?_, ?_, ?_⟩
  · intro h
    rw [collectTown, pyOrStr, if_neg h, pystrip_idempotent]
  · intro h
    rw [collectTown, pyOrStr, if_pos h]
  · intro h hsel
    subst hsel
    rw [collectTown, pyOrStr, if_pos h]
    rfl

/-- Witness for C10 at concrete selections and manual texts. -/
theorem C10_town_manual_precedence_witness :
    collectTown (some "Porto") " Lisbon " = "Lisbon" ∧
    collectTown (some "Porto") "  " = "Porto" ∧
    collectTown none "  " = "" := by
  refine ⟨?_, ?_, ?_⟩
  · rw [(C10_town_manual_precedence (some "Porto") " Lisbon ").1 (by decide)]
    decide
  · rw [(C10_town_manual_precedence (some "Porto") "  ").2.1 (by decide)]
    decide
  · exact (C10_town_manual_precedence none "  ").2.2 (by decide) rfl

/-- C4: on a successful inference call the reported total price is the
scalar output of the estimator times the collected area, and a missing or null
area is treated as zero, giving a zero total. -/
theorem C4_total_price (p : Rat) (a : Option Rat) :
    handleSubmit (Except.ok p) a =
      StepResult.continue_ (PredOutcome.success p (p * areaOrZero a)) ∧
    areaOrZero none = 0 ∧
    handleSubmit (Except.ok p) none = StepResult.continue_ (PredOutcome.success p 0) ∧
    (∀ (typeOpts : List String) (w : Widgets),
      pyGet (collectInputs typeOpts w) "TotalArea" = some (Value.int w.totalArea)) := by
  refine ⟨rfl, rfl, ?_, ?_⟩
  · simp [handleSubmit, areaOrZero]
  · intro typeOpts w
    simp [collectInputs]

/-- C5: every error raised inside the inference call is caught and reported
as a prediction-failure message that carries the underlying error text, and
the script step never halts the session, so a retry remains possible. -/
theorem C5_prediction_failed (e : String) (a : Option Rat) :
    handleSubmit (Except.error e) a =
      StepResult.continue_ (PredOutcome.failure ("Prediction failed: " ++ e)) ∧
    (∀ msg, handleSubmit (Except.error e) a ≠ StepResult.halted msg) := by
  refine ⟨rfl, ?_⟩
  intro msg h
  exact StepResult.noConfusion h

/-- Witness for C5 at a concrete error message. -/
theorem C5_prediction_failed_witness :
    handleSubmit (Except.error "boom") none =
      StepResult.continue_ (PredOutcome.failure "Prediction failed: boom") ∧
    handleSubmit (Except.error "boom") none ≠ StepResult.halted "boom" :=
  ⟨(C5_prediction_failed "boom" none).1, (C5_prediction_failed "boom" none).2 "boom"⟩

/-- C6: with no model file present, a download that raises, or one whose
resulting file is absent or below the 10,000,000-byte threshold, makes
`ensure_model` emit the download-failure message and halt; a large-enough
download proceeds; and with the file already present `ensure_model` is a
no-op that never consults the download. -/
theorem C6_ensure_model_spec (dl : Except String (Bool × Nat)) :
    (∀ ea sz, dl = Except.ok (ea, sz) → (ea = false ∨ sz < 10000000) →
      ensure_model false dl =
        StepResult.halted
          ("Model download failed: " ++ "Downloaded file looks too small or missing.")) ∧
    (∀ e, dl = Except.error e →
      ensure_model false dl = StepResult.halted ("Model download failed: " ++ e)) ∧
    (∀ ea sz, dl = Except.ok (ea, sz) → ea = true → 10000000 ≤ sz →
      ensure_model false dl = StepResult.continue_ ()) ∧
    (∀ dl2 : Except String (Bool × Nat), ensure_model true dl = ensure_model true dl2) ∧
    ensure_model true dl = StepResult.continue_ () := by
  refine ⟨?_, ?_, ?_, ?_, ?_⟩
  · intro ea sz hdl hbad
    subst hdl
    simp only [ensure_model, Bool.false_eq_true, if_false]
    rw [if_pos hbad]
  · intro e hdl
    subst hdl
    rfl
  · intro ea sz hdl hea hsz
    subst hdl
    subst hea
    simp only [ensure_model, Bool.false_eq_true, if_false]
    rw [if_neg]
    simp
    omega
  · intro dl2
    rfl
  · rfl

/-- Witness for C6 at concrete download outcomes. -/
theorem C6_ensure_model_spec_witness :
    ensure_model false (Except.ok (true, 5)) =
      StepResult.halted "Model download failed: Downloaded file looks too small or missing." ∧
    ensure_model false (Except.error "timeout") =
      StepResult.halted "Model download failed: timeout" ∧
    ensure_model false (Except.ok (true, 10000000)) = StepResult.continue_ () ∧
    ensure_model true (Except.error "x") = StepResult.continue_ () :=
  ⟨(C6_ensure_model_spec (Except.ok (true, 5))).1 true 5 rfl (Or.inr (by decide)),
   (C6_ensure_model_spec (Except.error "timeout")).2.1 "timeout" rfl,
   (C6_ensure_model_spec (Except.ok (true, 10000000))).2.2.1 true 10000000 rfl rfl (by decide),
   (C6_ensure_model_spec (Except.error "x")).2.2.2.2⟩

theorem latin1Encode_eq_some (cs bLat : List Nat) (h : latin1Encode cs = some bLat) :
    bLat = cs ∧ ∀ c ∈ cs, c < 0x100 := by
  rw [latin1Encode] at h
  split at h
  · refine ⟨(Option.some.injEq _ _ ▸ h).symm, ?_⟩
    intro c hc
    have hall := List.all_eq_true.mp (by assumption) c hc
    exact of_decide_eq_true hall
  · exact Option.noConfusion h

theorem latin1Decode_self (cs : List Nat) (h : ∀ c ∈ cs, c < 0x100) :
    latin1Decode cs = some cs := by
  rw [latin1Decode, if_pos]
  exact List.all_eq_true.mpr fun c hc => decide_eq_true (h c hc)

/-- C7: when the catalog file is absent, or its content fails to decode or
parse under both attempted encodings, `loadCatalog` returns the empty
catalog (the dict with "Town" and "Type" mapped to empty lists); the loader
is a total function and never raises. -/
theorem C7_loadCatalog_default (parse : List Nat → Option (List (String × List String)))
    (file : Option (List Nat))
    (h1 : ∀ bs, file = some bs → (utf8Decode bs).bind parse = none)
    (h2 : ∀ bs, file = some bs → (latin1Decode bs).bind parse = none) :
    loadCatalog parse file = emptyCatalog := by
  cases file with
  | none => rfl
  | some bs =>
    have e1 := h1 bs rfl
    have e2 := h2 bs rfl
    rw [loadCatalog, read_json_resilient, e1, e2]

/-- Witness for C7: an absent file, and a present file whose content parses
under neither encoding. -/
theorem C7_loadCatalog_default_witness :
    loadCatalog (fun _ => none) none = emptyCatalog ∧
    loadCatalog (fun _ => none) (some [0x7B]) = emptyCatalog :=
  ⟨C7_loadCatalog_default (fun _ => none) none
    (by intro bs hbs; cases hbs) (by intro bs hbs; cases hbs),
   C7_loadCatalog_default (fun _ => none) (some [0x7B])
    (by intro bs hbs; cases utf8Decode bs <;> rfl)
    (by intro bs hbs; cases latin1Decode bs <;> rfl)⟩

/-- C8 counterexample: the loader does try utf-8 then latin-1, but two files
with equivalent content need not load identically: the text consisting of
codepoints 0xC3, 0xA9 encodes under latin-1 to bytes that are themselves
valid UTF-8 for the single codepoint 0xE9, so the utf-8 attempt succeeds
with different content and the two loads disagree (parse here is the
identity on decoded text, which is what any parser injective on these two
texts, including a JSON parser, would propagate). -/
theorem C8_encoding_equiv_cx :
    latin1Encode [0xC3, 0xA9] = some [0xC3, 0xA9] ∧
    utf8Encode [0xC3, 0xA9] = [0xC3, 0x83, 0xC2, 0xA9] ∧
    read_json_resilient (fun s => some s) (some (utf8Encode [0xC3, 0xA9])) ([] : List Nat) =
      [0xC3, 0xA9] ∧
    read_json_resilient (fun s => some s) (some [0xC3, 0xA9]) ([] : List Nat) = [0xE9] ∧
    ([0xC3, 0xA9] : List Nat) ≠ [0xE9] := by
  decide

/-- C8 (amended): the loader attempts utf-8 first and falls back to latin-1
before giving up; and two catalog files with the same parseable content, one
utf-8-encoded and one latin-1-encoded, load to the same value provided the
latin-1 bytes are not themselves valid UTF-8 for different content. -/
theorem C8_encoding_fallback (α : Type) (parse : List Nat → Option α) (default : α) :
    (∀ bs v, (utf8Decode bs).bind parse = none → (latin1Decode bs).bind parse = some v →
      read_json_resilient parse (some bs) default = v) ∧
    (∀ bs v, (utf8Decode bs).bind parse = some v →
      read_json_resilient parse (some bs) default = v) ∧
    (∀ cs bLat m, latin1Encode cs = some bLat → parse cs = some m →
      (utf8Decode bLat = none ∨ utf8Decode bLat = some cs) →
      read_json_resilient parse (some (utf8Encode cs)) default = m ∧
      read_json_resilient parse (some bLat) default = m) := by
  refine ⟨?_, ?_, ?_⟩
  · intro bs v hu hl
    rw [read_json_resilient, hu, hl]
  · intro bs v hu
    rw [read_json_resilient, hu]
  · intro cs bLat m hL hp hdec
    obtain ⟨rfl, hall⟩ := latin1Encode_eq_some cs bLat hL
    constructor
    · have hu : utf8Decode (utf8Encode bLat) = some bLat := utf8Decode_utf8Encode bLat hall
      simp [read_json_resilient, hu, hp]
    · cases hdec with
      | inl hnone =>
        have hl2 : latin1Decode bLat = some bLat := latin1Decode_self bLat hall
        simp [read_json_resilient, hnone, hl2, hp]
      | inr hsame =>
        simp [read_json_resilient, hsame, hp]

/-- Witness for C8: content 0xE9 ("é") is latin-1-encodable, fails UTF-8
decoding on its latin-1 bytes, and parses to 7 under a parser defined at
exactly that content; both encodings of the file load to 7. -/
theorem C8_encoding_fallback_witness :
    read_json_resilient (fun s => if s = [0xE9] then some 7 else none)
      (some (utf8Encode [0xE9])) 0 = 7 ∧
    read_json_resilient (fun s => if s = [0xE9] then some 7 else none)
      (some [0xE9]) 0 = 7 := by
  have h := (C8_encoding_fallback Nat (fun s => if s = [0xE9] then some 7 else none) 0).2.2
    [0xE9] [0xE9] 7 (by decide) (by decide) (Or.inl (by decide))
  exact ⟨h.1, h.2⟩

end HousePriceApp
